import Mathlib

/-!
Shallow embedding of the reservation admission-control core of the
residential-complex backend (`src/controllers/reservation.ts`), together
with proofs of the specified invariants and functional properties.

Modelling conventions:
* Timestamps are integer epoch milliseconds (the value of JS `Date.getTime()`).
  An `Option Int` models a parsed `Date`: `none` is an Invalid Date (its
  `getTime()` is NaN, and every `<`/`>=` comparison involving it is false).
* Request-body fields are `Option`s: `none` models an absent (or JS-falsy)
  field, which the controller rejects as "Missing parameters".
* The database tables are lists; `prisma.create` appends a fresh row,
  `prisma.update` rewrites the row with the matching id, `findFirst`/`count`
  scan with the translated `where` clause.  A Prisma call receiving an
  Invalid Date throws, surfacing as the controller's 500 branch
  (`internalError` below).
* The server's local timezone (used by `setHours` in the same-day check) is
  modelled as a fixed offset `tz` in milliseconds from UTC (no DST).
* The division by 60000 in the duration check is cleared to a
  multiplication: over exact arithmetic `(e - s) / 60000 > maxD` iff
  `e - s > 60000 * maxD`.
-/

namespace Reserv

/-- Amenity row (`Amenity` table): id, unique name, concurrent `capacity`,
and `maxDuration` in minutes. -/
structure Amenity where
  id : Nat
  name : String
  capacity : Int
  maxDuration : Int
deriving Repr, DecidableEq

/-- Reservation row (`Reservation` table).  `status` is the database string
(`"confirmed"` / `"cancelled"` / default `"pending"`). -/
structure Reservation where
  id : Nat
  userId : Nat
  amenityId : Nat
  startTime : Int
  endTime : Int
  status : String
  hiddenFromUser : Bool
  createdAt : Int
deriving Repr, DecidableEq

/-- The reservation store: the two tables the engine touches, plus the
auto-increment counter for reservation ids. -/
structure Store where
  amenities : List Amenity
  reservations : List Reservation
  nextId : Nat
deriving Repr, DecidableEq

/-- Body of `POST /reservations`.  `none` in the outer option: field absent
or JS-falsy; `some none` in a date field: present but unparseable
(`new Date(x)` is an Invalid Date); `some (some t)`: parses to epoch ms `t`. -/
structure CreateReq where
  amenityId : Option Nat
  startTime : Option (Option Int)
  endTime : Option (Option Int)
deriving Repr, DecidableEq

/-- Outcome of `createReservation`, one constructor per `return` site. -/
inductive Outcome where
  | created (r : Reservation)
  | missingParameters
  | amenityNotFound
  | durationExceeded (name : String) (limit : Int)
  | invalidTimeRange
  | userTimeConflict
  | duplicateAmenityPerDay (name : String)
  | capacityFull
  | internalError
deriving Repr, DecidableEq

/-- Outcome of `cancelReservation` / `hideReservationFromUser`. -/
inductive UpdateOutcome where
  | updated (r : Reservation)
  | reservationNotFound
  | notAllowed
deriving Repr, DecidableEq

/-- JS `start >= end` on two `Date`s: numeric comparison of `getTime()`,
false whenever either side is NaN (an Invalid Date). -/
def dateGe : Option Int → Option Int → Bool
  | some a, some b => decide (b ≤ a)
  | _, _ => false

/-- Duration check `duration > amenity.maxDuration` where
`duration = (end.getTime() - start.getTime()) / 60000`; false when either
date is invalid (NaN comparison).  The division by the positive constant
60000 is cleared to a multiplication. -/
def durationExceeds : Option Int → Option Int → Int → Bool
  | some s, some e, maxD => decide (60000 * maxD < e - s)
  | _, _, _ => false

/-- The `where` fragment `{ startTime: { lt: end } }, { endTime: { gt: start } }`
shared by the user-conflict query and the capacity count. -/
def overlapsWindow (s e : Int) (r : Reservation) : Bool :=
  decide (r.startTime < e) && decide (s < r.endTime)

/-- Local midnight: `setHours(0,0,0,0)` on a date with epoch ms `t`, in local time `UTC+tz`
(`/` on `Int` is Euclidean division, which floors for this positive divisor). -/
def dayStartOf (tz t : Int) : Int :=
  86400000 * ((t + tz) / 86400000) - tz

/-- Local end of day: `setHours(23,59,59,999)` on a date with epoch ms `t`, local time `UTC+tz`. -/
def dayEndOf (tz t : Int) : Int :=
  dayStartOf tz t + 86399999

/-- Lookup `prisma.amenity.findUnique` by id. -/
def findAmenity (st : Store) (aid : Nat) : Option Amenity :=
  st.amenities.find? (fun a => a.id == aid)

/-- Query `prisma.reservation.findFirst` for the user-conflict check
(any amenity, confirmed, overlapping), reduced to existence. -/
def userConflictExists (st : Store) (userId : Nat) (s e : Int) : Bool :=
  st.reservations.any (fun r =>
    r.userId == userId && r.status == "confirmed" && overlapsWindow s e r)

/-- Query `prisma.reservation.findFirst` for the same-amenity same-local-day check,
reduced to existence. -/
def sameDayExists (tz : Int) (st : Store) (userId aid : Nat) (s : Int) : Bool :=
  st.reservations.any (fun r =>
    r.userId == userId && r.amenityId == aid && r.status == "confirmed" &&
    decide (dayStartOf tz s ≤ r.startTime) && decide (r.startTime ≤ dayEndOf tz s))

/-- Query `prisma.reservation.count` of confirmed reservations of the amenity
overlapping `[s, e)`. -/
def overlapCount (st : Store) (aid : Nat) (s e : Int) : Nat :=
  (st.reservations.filter (fun r =>
    r.amenityId == aid && r.status == "confirmed" && overlapsWindow s e r)).length

/-- Handler `createReservation` (`POST /reservations`): the admission engine.
Checks run in source order — parameter presence, amenity existence, max
duration, start before end, user cross-amenity overlap, same-amenity
same-day duplicate, capacity — each short-circuiting; on success a fresh
confirmed row is appended.  The three store queries receive the parsed
dates, so an Invalid Date reaching them throws (`internalError`). -/
def createReservation (tz now : Int) (st : Store) (userId : Nat)
    (req : CreateReq) : Outcome × Store :=
  match req.amenityId, req.startTime, req.endTime with
  | some amenityId, some startv, some endv =>
    match findAmenity st amenityId with
    | none => (.amenityNotFound, st)
    | some amenity =>
      if durationExceeds startv endv amenity.maxDuration then
        (.durationExceeded amenity.name amenity.maxDuration, st)
      else if dateGe startv endv then
        (.invalidTimeRange, st)
      else
        match startv, endv with
        | some s, some e =>
          if userConflictExists st userId s e then
            (.userTimeConflict, st)
          else if sameDayExists tz st userId amenityId s then
            (.duplicateAmenityPerDay amenity.name, st)
          else if amenity.capacity ≤ (overlapCount st amenityId s e : Int) then
            (.capacityFull, st)
          else
            let r : Reservation :=
              { id := st.nextId, userId := userId, amenityId := amenityId,
                startTime := s, endTime := e, status := "confirmed",
                hiddenFromUser := false, createdAt := now }
            (.created r,
             { st with reservations := st.reservations ++ [r],
                       nextId := st.nextId + 1 })
        | _, _ => (.internalError, st)
  | _, _, _ => (.missingParameters, st)

/-- Handler `cancelReservation` (`PATCH /reservations/:id/cancel`): ownership-checked
update of `status` to `"cancelled"`. -/
def cancelReservation (st : Store) (userId rid : Nat) : UpdateOutcome × Store :=
  match st.reservations.find? (fun r => r.id == rid) with
  | none => (.reservationNotFound, st)
  | some r =>
    if r.userId ≠ userId then (.notAllowed, st)
    else
      (.updated { r with status := "cancelled" },
       { st with reservations := st.reservations.map (fun x =>
           if x.id == rid then { x with status := "cancelled" } else x) })

/-- Handler `hideReservationFromUser` (`PATCH /reservations/:id/hide`):
ownership-checked update of `hiddenFromUser` to `true`. -/
def hideReservationFromUser (st : Store) (userId rid : Nat) : UpdateOutcome × Store :=
  match st.reservations.find? (fun r => r.id == rid) with
  | none => (.reservationNotFound, st)
  | some r =>
    if r.userId ≠ userId then (.notAllowed, st)
    else
      (.updated { r with hiddenFromUser := true },
       { st with reservations := st.reservations.map (fun x =>
           if x.id == rid then { x with hiddenFromUser := true } else x) })

/-- Handler `getUserReservations` (`GET /reservations`): all rows of the user with
`hiddenFromUser = false`, ordered by `startTime` ascending.  Read-only. -/
def getUserReservations (st : Store) (userId : Nat) : List Reservation :=
  (st.reservations.filter (fun r =>
    r.userId == userId && r.hiddenFromUser == false)).mergeSort
    (fun a b => a.startTime ≤ b.startTime)

/-- Handler `getAmenityReservations` (`GET /reservations/amenity/:amenityId`):
confirmed rows of the amenity, optionally restricted by a UTC day range,
ordered by `startTime` ascending.  `startDate`/`endDate` are the parsed
`T00:00:00.000Z` midnights of the query-string dates; the handler adds
86399999 ms to reach `T23:59:59.999Z`.  The store is passed through
unchanged: the handler only reads. -/
def getAmenityReservations (st : Store) (aid : Nat)
    (startDate endDate : Option Int) : List Reservation × Store :=
  let base := fun (r : Reservation) =>
    r.amenityId == aid && r.status == "confirmed"
  let cond :=
    match startDate, endDate with
    | some sd, some ed => fun r =>
        base r && decide (r.startTime ≤ ed + 86399999) && decide (sd ≤ r.endTime)
    | some sd, none => fun r => base r && decide (sd ≤ r.startTime)
    | none, some ed => fun r => base r && decide (r.endTime ≤ ed + 86399999)
    | none, none => base
  ((st.reservations.filter cond).mergeSort
    (fun a b => a.startTime ≤ b.startTime), st)

/-! ### The engine as a state machine

The state-changing operations of the engine, sequenced from an initial
store.  The server's timezone `tz` is fixed across a run. -/

/-- One engine operation. -/
inductive Op where
  | propose (userId : Nat) (req : CreateReq) (now : Int)
  | cancel (userId rid : Nat)
  | hide (userId rid : Nat)
deriving Repr

/-- Apply one operation, keeping only the store. -/
def step (tz : Int) (st : Store) : Op → Store
  | .propose u req now => (createReservation tz now st u req).2
  | .cancel u rid => (cancelReservation st u rid).2
  | .hide u rid => (hideReservationFromUser st u rid).2

/-- Apply a sequence of operations. -/
def run (tz : Int) (st : Store) (ops : List Op) : Store :=
  ops.foldl (step tz) st

/-! ### Invariants -/

/-- Number of confirmed reservations of amenity `aid` whose `[startTime,
endTime)` interval contains the instant `t`. -/
def confirmedAt (st : Store) (aid : Nat) (t : Int) : Nat :=
  (st.reservations.filter (fun r =>
    r.amenityId == aid && r.status == "confirmed" &&
    decide (r.startTime ≤ t) && decide (t < r.endTime))).length

/-- Capacity invariant: at no instant do the confirmed reservations of an
amenity outnumber its capacity. -/
def CapacityInv (st : Store) : Prop :=
  ∀ a ∈ st.amenities, ∀ t : Int, (confirmedAt st a.id t : Int) ≤ a.capacity

/-- The amenity table has unique primary keys (`findUnique`'s premise). -/
def AmenityIdsUnique (st : Store) : Prop :=
  st.amenities.Pairwise (fun a b => a.id ≠ b.id)

/-- No two confirmed reservations of one user overlap, across amenities. -/
def UserNoOverlapInv (st : Store) : Prop :=
  st.reservations.Pairwise (fun r1 r2 =>
    r1.userId = r2.userId → r1.status = "confirmed" → r2.status = "confirmed" →
      ¬(r1.startTime < r2.endTime ∧ r2.startTime < r1.endTime))

/-- Each user has at most one confirmed reservation per amenity per local
calendar day (days compared by their local midnight). -/
def PerDayInv (tz : Int) (st : Store) : Prop :=
  st.reservations.Pairwise (fun r1 r2 =>
    r1.userId = r2.userId → r1.amenityId = r2.amenityId →
    r1.status = "confirmed" → r2.status = "confirmed" →
      dayStartOf tz r1.startTime ≠ dayStartOf tz r2.startTime)

/-! ### Helper definitions and lemmas -/

/-- The row inserted by the accept path of `createReservation`. -/
def newReservation (st : Store) (u aid : Nat) (s e now : Int) : Reservation :=
  { id := st.nextId, userId := u, amenityId := aid, startTime := s, endTime := e,
    status := "confirmed", hiddenFromUser := false, createdAt := now }

/-- The store after the accept path of `createReservation`. -/
def acceptStore (st : Store) (u aid : Nat) (s e now : Int) : Store :=
  { st with reservations := st.reservations ++ [newReservation st u aid s e now],
            nextId := st.nextId + 1 }

/-! ### Concrete sample data -/

/-- A store with one amenity and no reservations. -/
def poolStore : Store :=
  { amenities := [{ id := 1, name := "Pool", capacity := 3, maxDuration := 120 }],
    reservations := [], nextId := 0 }

/-- Three one-hour bookings of the pool by three users, same window. -/
def poolOps : List Op :=
  [ .propose 10 ⟨some 1, some (some 0), some (some 3600000)⟩ 0,
    .propose 11 ⟨some 1, some (some 0), some (some 3600000)⟩ 0,
    .propose 12 ⟨some 1, some (some 0), some (some 3600000)⟩ 0 ]

/-- A store with two amenities and one confirmed reservation of user 10 on
amenity 1 over `[0, 3600000)`. -/
def twoAmenityStore : Store :=
  { amenities := [{ id := 1, name := "Pool", capacity := 3, maxDuration := 120 },
                  { id := 2, name := "Gym", capacity := 2, maxDuration := 180 }],
    reservations := [{ id := 1, userId := 10, amenityId := 1, startTime := 0,
                       endTime := 3600000, status := "confirmed",
                       hiddenFromUser := false, createdAt := 0 }],
    nextId := 2 }

/-- Row equality up to the `hiddenFromUser` flag. -/
def ReservEqExceptHidden (r r' : Reservation) : Prop :=
  r.id = r'.id ∧ r.userId = r'.userId ∧ r.amenityId = r'.amenityId ∧
  r.startTime = r'.startTime ∧ r.endTime = r'.endTime ∧
  r.status = r'.status ∧ r.createdAt = r'.createdAt

/-- Store equality up to `hiddenFromUser` flags of its rows. -/
def StoreEqExceptHidden (st st' : Store) : Prop :=
  st.amenities = st'.amenities ∧ st.nextId = st'.nextId ∧
  List.Forall₂ ReservEqExceptHidden st.reservations st'.reservations

/-- Variant of `twoAmenityStore` with the reservation's `hiddenFromUser`
flipped. -/
def twoAmenityStoreHidden : Store :=
  { twoAmenityStore with
    reservations := [{ id := 1, userId := 10, amenityId := 1, startTime := 0,
                       endTime := 3600000, status := "confirmed",
                       hiddenFromUser := true, createdAt := 0 }] }

/-- A timestamp lies between a day's local midnight and its last
millisecond exactly when it has the same local midnight. -/
theorem mem_day_iff (tz s x : Int) :
    (dayStartOf tz s ≤ x ∧ x ≤ dayEndOf tz s) ↔ dayStartOf tz x = dayStartOf tz s := by
  unfold dayEndOf dayStartOf
  omega

theorem findAmenity_some {st : Store} {aid : Nat} {a : Amenity}
    (h : findAmenity st aid = some a) : a ∈ st.amenities ∧ a.id = aid := by
  unfold findAmenity at h
  refine ⟨List.mem_of_find?_eq_some h, ?_⟩
  have h2 := List.find?_some h
  simpa using h2

theorem findAmenity_eq_of_mem {st : Store} {aid : Nat} {a b : Amenity}
    (hU : AmenityIdsUnique st) (h : findAmenity st aid = some b)
    (ha : a ∈ st.amenities) (haid : a.id = aid) : a = b := by
  rcases findAmenity_some h with ⟨hb, hbid⟩
  by_contra hne
  exact (List.Pairwise.forall (fun _ _ h => Ne.symm h) hU ha hb hne)
    (haid.trans hbid.symm)

/-- Every run of `createReservation` either leaves the store unchanged or
takes the accept path, in which case all admission checks passed. -/
theorem createReservation_state_cases (tz now : Int) (st : Store) (u : Nat)
    (req : CreateReq) :
    ((∀ r0 : Reservation, (createReservation tz now st u req).1 ≠ .created r0) ∧
      (createReservation tz now st u req).2 = st) ∨
    ∃ aid s e amenity,
      req = ⟨some aid, some (some s), some (some e)⟩ ∧
      findAmenity st aid = some amenity ∧
      userConflictExists st u s e = false ∧
      sameDayExists tz st u aid s = false ∧
      (overlapCount st aid s e : Int) < amenity.capacity ∧
      createReservation tz now st u req =
        (.created (newReservation st u aid s e now), acceptStore st u aid s e now) := by
  rcases req with ⟨aopt, sopt, eopt⟩
  rcases aopt with _ | aid
  · exact Or.inl ⟨fun r0 => by simp [createReservation], rfl⟩
  rcases sopt with _ | sv
  · exact Or.inl ⟨fun r0 => by simp [createReservation], rfl⟩
  rcases eopt with _ | ev
  · exact Or.inl ⟨fun r0 => by simp [createReservation], rfl⟩
  cases hfa : findAmenity st aid with
  | none => left; simp [createReservation, hfa]
  | some amenity =>
    cases hdur : durationExceeds sv ev amenity.maxDuration with
    | true => left; simp [createReservation, hfa, hdur]
    | false =>
    cases hge : dateGe sv ev with
    | true => left; simp [createReservation, hfa, hdur, hge]
    | false =>
    rcases sv with _ | s
    · left; simp [createReservation, hfa, hdur, hge]
    rcases ev with _ | e
    · left; simp [createReservation, hfa, hdur, hge]
    cases huc : userConflictExists st u s e with
    | true => left; simp [createReservation, hfa, hdur, hge, huc]
    | false =>
    cases hsd : sameDayExists tz st u aid s with
    | true => left; simp [createReservation, hfa, hdur, hge, huc, hsd]
    | false =>
    by_cases hcap : amenity.capacity ≤ (overlapCount st aid s e : Int)
    · left; simp [createReservation, hfa, hdur, hge, huc, hsd, hcap]
    · right
      refine ⟨aid, s, e, amenity, rfl, hfa, huc, hsd, by omega, ?_⟩
      simp [createReservation, hfa, hdur, hge, huc, hsd, hcap,
        newReservation, acceptStore]

/-- The operation `cancelReservation` either leaves the store unchanged or rewrites the
matching row's `status` to `"cancelled"`. -/
theorem cancelReservation_state_cases (st : Store) (u rid : Nat) :
    (cancelReservation st u rid).2 = st ∨
    (cancelReservation st u rid).2 =
      { st with reservations := st.reservations.map (fun x =>
          if x.id == rid then { x with status := "cancelled" } else x) } := by
  unfold cancelReservation
  cases h : st.reservations.find? (fun r => r.id == rid) with
  | none => left; rfl
  | some r =>
    by_cases ho : r.userId ≠ u
    · left; simp [ho]
    · right; simp [ho]

/-- The operation `hideReservationFromUser` either leaves the store unchanged or rewrites
the matching row's `hiddenFromUser` to `true`. -/
theorem hideReservation_state_cases (st : Store) (u rid : Nat) :
    (hideReservationFromUser st u rid).2 = st ∨
    (hideReservationFromUser st u rid).2 =
      { st with reservations := st.reservations.map (fun x =>
          if x.id == rid then { x with hiddenFromUser := true } else x) } := by
  unfold hideReservationFromUser
  cases h : st.reservations.find? (fun r => r.id == rid) with
  | none => left; rfl
  | some r =>
    by_cases ho : r.userId ≠ u
    · left; simp [ho]
    · right; simp [ho]

/-- With the first four checks discharged, `createReservation` reduces to
the three store checks. -/
theorem createReservation_eval {st : Store} {aid : Nat} {amenity : Amenity}
    (tz now : Int) (u : Nat) {s e : Int}
    (hfa : findAmenity st aid = some amenity)
    (hdur : ¬ 60000 * amenity.maxDuration < e - s) (hlt : s < e) :
    createReservation tz now st u ⟨some aid, some (some s), some (some e)⟩ =
      (if userConflictExists st u s e then (.userTimeConflict, st)
       else if sameDayExists tz st u aid s then
         (.duplicateAmenityPerDay amenity.name, st)
       else if amenity.capacity ≤ (overlapCount st aid s e : Int) then
         (.capacityFull, st)
       else (.created (newReservation st u aid s e now),
             acceptStore st u aid s e now)) := by
  unfold createReservation
  simp [hfa, durationExceeds, dateGe, hdur, not_le.mpr hlt,
    newReservation, acceptStore]

/-- No engine operation touches the amenity table. -/
theorem step_amenities (tz : Int) (st : Store) (op : Op) :
    (step tz st op).amenities = st.amenities := by
  cases op with
  | propose u req now =>
    rcases createReservation_state_cases tz now st u req with ⟨-, h⟩ |
      ⟨aid, s, e, am, _, _, _, _, _, h⟩
    · simp [step, h]
    · simp [step, h, acceptStore]
  | cancel u rid =>
    rcases cancelReservation_state_cases st u rid with h | h <;> simp [step, h]
  | hide u rid =>
    rcases hideReservation_state_cases st u rid with h | h <;> simp [step, h]

theorem run_amenities (tz : Int) (st : Store) (ops : List Op) :
    (run tz st ops).amenities = st.amenities := by
  induction ops generalizing st with
  | nil => rfl
  | cons op ops ih => rw [run, List.foldl_cons, ← run, ih, step_amenities]

theorem amenityIdsUnique_run (tz : Int) {st : Store} (hU : AmenityIdsUnique st)
    (ops : List Op) : AmenityIdsUnique (run tz st ops) := by
  unfold AmenityIdsUnique at *
  rw [run_amenities]
  exact hU

theorem amenityIdsUnique_step (tz : Int) {st : Store} (hU : AmenityIdsUnique st)
    (op : Op) : AmenityIdsUnique (step tz st op) := by
  unfold AmenityIdsUnique at *
  rw [step_amenities]
  exact hU

/-! ### Preservation of the capacity invariant -/

theorem capacityInv_propose (tz now : Int) {st : Store} (hU : AmenityIdsUnique st)
    (hI : CapacityInv st) (u : Nat) (req : CreateReq) :
    CapacityInv (createReservation tz now st u req).2 := by
  rcases createReservation_state_cases tz now st u req with ⟨-, h⟩ |
    ⟨aid, s, e, amenity, hreq, hfa, huc, hsd, hcap, h⟩
  · rw [h]; exact hI
  · rw [h]
    intro a ha t
    have ha' : a ∈ st.amenities := by simpa [acceptStore] using ha
    have hle := hI a ha' t
    set p : Reservation → Bool := fun r =>
      r.amenityId == a.id && r.status == "confirmed" &&
      decide (r.startTime ≤ t) && decide (t < r.endTime) with hp
    show ((List.filter p
      (st.reservations ++ [newReservation st u aid s e now])).length : Int) ≤
      a.capacity
    rw [List.filter_append, List.length_append]
    cases hnew : p (newReservation st u aid s e now) with
    | false =>
      -- the inserted row does not contain `t`: the count is unchanged
      have h0 : (List.filter p [newReservation st u aid s e now]).length = 0 := by
        simp [List.filter_cons, hnew]
      rw [h0]
      simpa [confirmedAt] using hle
    | true =>
      -- the inserted row contains the instant `t`
      have h1 : (List.filter p [newReservation st u aid s e now]).length = 1 := by
        simp [List.filter_cons, hnew]
      have hfields : (aid = a.id ∧ s ≤ t) ∧ t < e := by
        simpa [hp, newReservation] using hnew
      obtain ⟨⟨hfid, hst⟩, hte⟩ := hfields
      have haeq : a = amenity := findAmenity_eq_of_mem hU hfa ha' hfid.symm
      have hmono : (st.reservations.filter p).length ≤ overlapCount st aid s e := by
        unfold overlapCount
        rw [← List.countP_eq_length_filter, ← List.countP_eq_length_filter]
        apply List.countP_mono_left
        intro r _ hr
        rw [hp] at hr
        simp only [Bool.and_eq_true, beq_iff_eq, decide_eq_true_eq] at hr
        obtain ⟨⟨⟨h1', h2'⟩, h3'⟩, h4'⟩ := hr
        simp only [Bool.and_eq_true, beq_iff_eq, overlapsWindow, decide_eq_true_eq]
        exact ⟨⟨h1'.trans hfid.symm, h2'⟩, lt_of_le_of_lt h3' hte,
          lt_of_le_of_lt hst h4'⟩
      have hlt : (overlapCount st aid s e : Int) < a.capacity := haeq ▸ hcap
      rw [h1]
      push_cast
      omega

theorem confirmedAt_cancel_le (st : Store) (u rid aid : Nat) (t : Int) :
    confirmedAt (cancelReservation st u rid).2 aid t ≤ confirmedAt st aid t := by
  rcases cancelReservation_state_cases st u rid with h | h
  · rw [h]
  · rw [h]
    unfold confirmedAt
    rw [← List.countP_eq_length_filter, ← List.countP_eq_length_filter,
      List.countP_map]
    apply List.countP_mono_left
    intro x _ hx
    by_cases hid : x.id == rid
    · simp [Function.comp, hid] at hx
    · simpa [Function.comp, hid] using hx

theorem confirmedAt_hide_eq (st : Store) (u rid aid : Nat) (t : Int) :
    confirmedAt (hideReservationFromUser st u rid).2 aid t = confirmedAt st aid t := by
  rcases hideReservation_state_cases st u rid with h | h <;> rw [h]
  · unfold confirmedAt
    rw [← List.countP_eq_length_filter, ← List.countP_eq_length_filter,
      List.countP_map]
    apply List.countP_congr
    intro x _
    by_cases hid : x.id == rid <;> simp [Function.comp, hid]

theorem cancelReservation_amenities (st : Store) (u rid : Nat) :
    (cancelReservation st u rid).2.amenities = st.amenities := by
  rcases cancelReservation_state_cases st u rid with h | h <;> rw [h]

theorem hideReservation_amenities (st : Store) (u rid : Nat) :
    (hideReservationFromUser st u rid).2.amenities = st.amenities := by
  rcases hideReservation_state_cases st u rid with h | h <;> rw [h]

theorem capacityInv_step (tz : Int) {st : Store} (hU : AmenityIdsUnique st)
    (hI : CapacityInv st) (op : Op) : CapacityInv (step tz st op) := by
  cases op with
  | propose u req now => exact capacityInv_propose tz now hU hI u req
  | cancel u rid =>
    intro a ha t
    simp only [step] at ha ⊢
    rw [cancelReservation_amenities] at ha
    exact le_trans (by exact_mod_cast confirmedAt_cancel_le st u rid a.id t)
      (hI a ha t)
  | hide u rid =>
    intro a ha t
    simp only [step] at ha ⊢
    rw [hideReservation_amenities] at ha
    rw [confirmedAt_hide_eq]
    exact hI a ha t

theorem capacityInv_run (tz : Int) {st : Store} (hU : AmenityIdsUnique st)
    (hI : CapacityInv st) (ops : List Op) : CapacityInv (run tz st ops) := by
  induction ops generalizing st with
  | nil => exact hI
  | cons op ops ih =>
    rw [run, List.foldl_cons, ← run]
    exact ih (amenityIdsUnique_step tz hU op) (capacityInv_step tz hU hI op)

/-! ### Preservation of the user-no-overlap invariant -/

theorem userNoOverlap_propose (tz now : Int) {st : Store}
    (hI : UserNoOverlapInv st) (u : Nat) (req : CreateReq) :
    UserNoOverlapInv (createReservation tz now st u req).2 := by
  rcases createReservation_state_cases tz now st u req with ⟨-, h⟩ |
    ⟨aid, s, e, amenity, hreq, hfa, huc, hsd, hcap, h⟩
  · rw [h]; exact hI
  · rw [h]
    unfold UserNoOverlapInv acceptStore
    rw [List.pairwise_append]
    refine ⟨hI, List.pairwise_singleton _ _, ?_⟩
    intro r hr x hx
    rw [List.mem_singleton] at hx
    subst hx
    intro huser hrc _
    have hnc := List.any_eq_false.mp huc r hr
    simp only [newReservation] at huser ⊢
    intro hover
    apply hnc
    simp only [Bool.and_eq_true, beq_iff_eq, overlapsWindow, decide_eq_true_eq]
    exact ⟨⟨huser, hrc⟩, hover.1, hover.2⟩

/-- The row rewrite performed by `cancelReservation` changes no field but
`status`, and never makes a row confirmed. -/
theorem cancel_map_fields (rid : Nat) (x : Reservation) :
    ((if x.id == rid then { x with status := "cancelled" } else x) :
      Reservation).userId = x.userId ∧
    ((if x.id == rid then { x with status := "cancelled" } else x) :
      Reservation).amenityId = x.amenityId ∧
    ((if x.id == rid then { x with status := "cancelled" } else x) :
      Reservation).startTime = x.startTime ∧
    ((if x.id == rid then { x with status := "cancelled" } else x) :
      Reservation).endTime = x.endTime ∧
    (((if x.id == rid then { x with status := "cancelled" } else x) :
      Reservation).status = "confirmed" → x.status = "confirmed") := by
  by_cases hx : x.id == rid <;> simp [hx]

/-- The row rewrite performed by `hideReservationFromUser` changes no field
but `hiddenFromUser`. -/
theorem hide_map_fields (rid : Nat) (x : Reservation) :
    ((if x.id == rid then { x with hiddenFromUser := true } else x) :
      Reservation).userId = x.userId ∧
    ((if x.id == rid then { x with hiddenFromUser := true } else x) :
      Reservation).amenityId = x.amenityId ∧
    ((if x.id == rid then { x with hiddenFromUser := true } else x) :
      Reservation).startTime = x.startTime ∧
    ((if x.id == rid then { x with hiddenFromUser := true } else x) :
      Reservation).endTime = x.endTime ∧
    ((if x.id == rid then { x with hiddenFromUser := true } else x) :
      Reservation).status = x.status := by
  by_cases hx : x.id == rid <;> simp [hx]

theorem userNoOverlap_cancel {st : Store} (hI : UserNoOverlapInv st)
    (u rid : Nat) : UserNoOverlapInv (cancelReservation st u rid).2 := by
  rcases cancelReservation_state_cases st u rid with h | h
  · rw [h]; exact hI
  · rw [h]
    unfold UserNoOverlapInv
    rw [List.pairwise_map]
    apply hI.imp
    intro r1 r2 hP hu hs1 hs2
    obtain ⟨u1, a1, s1, e1, c1⟩ := cancel_map_fields rid r1
    obtain ⟨u2, a2, s2, e2, c2⟩ := cancel_map_fields rid r2
    rw [u1, u2] at hu
    rw [s1, e1, s2, e2]
    exact hP hu (c1 hs1) (c2 hs2)

theorem userNoOverlap_hide {st : Store} (hI : UserNoOverlapInv st)
    (u rid : Nat) : UserNoOverlapInv (hideReservationFromUser st u rid).2 := by
  rcases hideReservation_state_cases st u rid with h | h
  · rw [h]; exact hI
  · rw [h]
    unfold UserNoOverlapInv
    rw [List.pairwise_map]
    apply hI.imp
    intro r1 r2 hP hu hs1 hs2
    obtain ⟨u1, a1, s1, e1, c1⟩ := hide_map_fields rid r1
    obtain ⟨u2, a2, s2, e2, c2⟩ := hide_map_fields rid r2
    rw [u1, u2] at hu
    rw [c1] at hs1
    rw [c2] at hs2
    rw [s1, e1, s2, e2]
    exact hP hu hs1 hs2

theorem userNoOverlap_run (tz : Int) {st : Store} (hI : UserNoOverlapInv st)
    (ops : List Op) : UserNoOverlapInv (run tz st ops) := by
  induction ops generalizing st with
  | nil => exact hI
  | cons op ops ih =>
    rw [run, List.foldl_cons, ← run]
    refine ih ?_
    cases op with
    | propose u req now => exact userNoOverlap_propose tz now hI u req
    | cancel u rid => exact userNoOverlap_cancel hI u rid
    | hide u rid => exact userNoOverlap_hide hI u rid

/-! ### Preservation of the one-per-day invariant -/

theorem perDay_propose (tz now : Int) {st : Store} (hI : PerDayInv tz st)
    (u : Nat) (req : CreateReq) :
    PerDayInv tz (createReservation tz now st u req).2 := by
  rcases createReservation_state_cases tz now st u req with ⟨-, h⟩ |
    ⟨aid, s, e, amenity, hreq, hfa, huc, hsd, hcap, h⟩
  · rw [h]; exact hI
  · rw [h]
    unfold PerDayInv acceptStore
    rw [List.pairwise_append]
    refine ⟨hI, List.pairwise_singleton _ _, ?_⟩
    intro r hr x hx
    rw [List.mem_singleton] at hx
    subst hx
    intro huser hamen hrc _
    have hnc := List.any_eq_false.mp hsd r hr
    simp only [newReservation] at huser hamen ⊢
    intro hday
    apply hnc
    have hb := (mem_day_iff tz s r.startTime).mpr hday
    simp only [Bool.and_eq_true, beq_iff_eq, decide_eq_true_eq]
    exact ⟨⟨⟨⟨huser, hamen⟩, hrc⟩, hb.1⟩, hb.2⟩

theorem perDay_cancel (tz : Int) {st : Store} (hI : PerDayInv tz st)
    (u rid : Nat) : PerDayInv tz (cancelReservation st u rid).2 := by
  rcases cancelReservation_state_cases st u rid with h | h
  · rw [h]; exact hI
  · rw [h]
    unfold PerDayInv
    rw [List.pairwise_map]
    apply hI.imp
    intro r1 r2 hP hu ha hs1 hs2
    obtain ⟨u1, a1, s1, e1, c1⟩ := cancel_map_fields rid r1
    obtain ⟨u2, a2, s2, e2, c2⟩ := cancel_map_fields rid r2
    rw [u1, u2] at hu
    rw [a1, a2] at ha
    rw [s1, s2]
    exact hP hu ha (c1 hs1) (c2 hs2)

theorem perDay_hide (tz : Int) {st : Store} (hI : PerDayInv tz st)
    (u rid : Nat) : PerDayInv tz (hideReservationFromUser st u rid).2 := by
  rcases hideReservation_state_cases st u rid with h | h
  · rw [h]; exact hI
  · rw [h]
    unfold PerDayInv
    rw [List.pairwise_map]
    apply hI.imp
    intro r1 r2 hP hu ha hs1 hs2
    obtain ⟨u1, a1, s1, e1, c1⟩ := hide_map_fields rid r1
    obtain ⟨u2, a2, s2, e2, c2⟩ := hide_map_fields rid r2
    rw [u1, u2] at hu
    rw [a1, a2] at ha
    rw [c1] at hs1
    rw [c2] at hs2
    rw [s1, s2]
    exact hP hu ha hs1 hs2

theorem perDay_run (tz : Int) {st : Store} (hI : PerDayInv tz st)
    (ops : List Op) : PerDayInv tz (run tz st ops) := by
  induction ops generalizing st with
  | nil => exact hI
  | cons op ops ih =>
    rw [run, List.foldl_cons, ← run]
    refine ih ?_
    cases op with
    | propose u req now => exact perDay_propose tz now hI u req
    | cancel u rid => exact perDay_cancel tz hI u rid
    | hide u rid => exact perDay_hide tz hI u rid

/-! ### Claim theorems -/

/-- C1: starting from a store satisfying the capacity invariant (and with
unique amenity ids), every state reachable by the engine's operations
satisfies it — at no instant do the confirmed reservations of an amenity
covering that instant outnumber its capacity; and, with the preceding
admission checks passing, `createReservation` rejects with `CapacityFull`
exactly when the count of existing confirmed overlapping reservations is
not strictly less than the amenity's capacity. -/
theorem capacity_invariant_and_capacityFull_iff (tz : Int) (st : Store)
    (hU : AmenityIdsUnique st) (hI : CapacityInv st) :
    (∀ ops : List Op, CapacityInv (run tz st ops)) ∧
    (∀ (now : Int) (u aid : Nat) (s e : Int) (amenity : Amenity),
      findAmenity st aid = some amenity →
      ¬ 60000 * amenity.maxDuration < e - s →
      s < e →
      userConflictExists st u s e = false →
      sameDayExists tz st u aid s = false →
      ((createReservation tz now st u
          ⟨some aid, some (some s), some (some e)⟩).1 = .capacityFull ↔
        amenity.capacity ≤ (overlapCount st aid s e : Int))) := by
  constructor
  · intro ops
    exact capacityInv_run tz hU hI ops
  · intro now u aid s e amenity hfa hdur hlt huc hsd
    rw [createReservation_eval tz now u hfa hdur hlt]
    by_cases hcap : amenity.capacity ≤ (overlapCount st aid s e : Int) <;>
      simp [huc, hsd, hcap]

/-- C3: starting from a store in which no two confirmed reservations of one
user overlap, every reachable state keeps that property; and whenever the
requesting user has a confirmed reservation (for any amenity) overlapping
the proposed window and the preceding checks pass, `createReservation`
rejects with `UserTimeConflict`. -/
theorem user_no_overlap_invariant (tz : Int) (st : Store)
    (hI : UserNoOverlapInv st) :
    (∀ ops : List Op, UserNoOverlapInv (run tz st ops)) ∧
    (∀ (now : Int) (u aid : Nat) (s e : Int) (amenity : Amenity),
      findAmenity st aid = some amenity →
      ¬ 60000 * amenity.maxDuration < e - s →
      s < e →
      (∃ r ∈ st.reservations, r.userId = u ∧ r.status = "confirmed" ∧
        r.startTime < e ∧ s < r.endTime) →
      (createReservation tz now st u
        ⟨some aid, some (some s), some (some e)⟩).1 = .userTimeConflict) := by
  constructor
  · intro ops
    exact userNoOverlap_run tz hI ops
  · intro now u aid s e amenity hfa hdur hlt hex
    have huc : userConflictExists st u s e = true := by
      obtain ⟨r, hr, h1, h2, h3, h4⟩ := hex
      unfold userConflictExists
      rw [List.any_eq_true]
      exact ⟨r, hr, by simp [overlapsWindow, h1, h2, h3, h4]⟩
    rw [createReservation_eval tz now u hfa hdur hlt]
    simp [huc]

/-- C4: starting from a store in which each user has at most one confirmed
reservation per amenity per local calendar day, every reachable state keeps
that property; and whenever the user already has a confirmed reservation
for the same amenity starting between 00:00:00.000 and 23:59:59.999 of the
proposed start's local day — even without interval overlap — and the
preceding checks pass, `createReservation` rejects with
`DuplicateAmenityPerDay`. -/
theorem per_day_uniqueness_invariant (tz : Int) (st : Store)
    (hI : PerDayInv tz st) :
    (∀ ops : List Op, PerDayInv tz (run tz st ops)) ∧
    (∀ (now : Int) (u aid : Nat) (s e : Int) (amenity : Amenity),
      findAmenity st aid = some amenity →
      ¬ 60000 * amenity.maxDuration < e - s →
      s < e →
      userConflictExists st u s e = false →
      (∃ r ∈ st.reservations, r.userId = u ∧ r.amenityId = aid ∧
        r.status = "confirmed" ∧
        dayStartOf tz s ≤ r.startTime ∧ r.startTime ≤ dayEndOf tz s) →
      (createReservation tz now st u
        ⟨some aid, some (some s), some (some e)⟩).1 =
        .duplicateAmenityPerDay amenity.name) := by
  constructor
  · intro ops
    exact perDay_run tz hI ops
  · intro now u aid s e amenity hfa hdur hlt huc hex
    have hsd : sameDayExists tz st u aid s = true := by
      obtain ⟨r, hr, h1, h2, h3, h4, h5⟩ := hex
      unfold sameDayExists
      rw [List.any_eq_true]
      exact ⟨r, hr, by simp [h1, h2, h3, h4, h5]⟩
    rw [createReservation_eval tz now u hfa hdur hlt]
    simp [huc, hsd]

theorem capacity_invariant_witness :
    (confirmedAt (run 0 poolStore poolOps) 1 1800000 : Int) ≤ 3 := by
  have h := capacity_invariant_and_capacityFull_iff 0 poolStore
    (by simp [AmenityIdsUnique, poolStore])
    (by
      intro a ha t
      have ha' : a = { id := 1, name := "Pool", capacity := 3, maxDuration := 120 } := by
        simpa [poolStore] using ha
      subst ha'
      simp [confirmedAt, poolStore])
  have h2 := h.1 poolOps { id := 1, name := "Pool", capacity := 3, maxDuration := 120 }
    (by rw [run_amenities]; simp [poolStore]) 1800000
  simpa using h2

theorem user_no_overlap_witness :
    (createReservation 0 0 twoAmenityStore 10
      ⟨some 2, some (some 1800000), some (some 5400000)⟩).1 = .userTimeConflict := by
  have h := user_no_overlap_invariant 0 twoAmenityStore
    (by simp [UserNoOverlapInv, twoAmenityStore])
  exact h.2 0 10 2 1800000 5400000 { id := 2, name := "Gym", capacity := 2, maxDuration := 180 }
    (by rfl) (by decide) (by decide)
    ⟨{ id := 1, userId := 10, amenityId := 1, startTime := 0, endTime := 3600000,
       status := "confirmed", hiddenFromUser := false, createdAt := 0 },
     by simp [twoAmenityStore], rfl, rfl, by decide, by decide⟩

theorem per_day_uniqueness_witness :
    (createReservation 0 0 twoAmenityStore 10
      ⟨some 1, some (some 7200000), some (some 10800000)⟩).1 =
      .duplicateAmenityPerDay "Pool" := by
  have h := per_day_uniqueness_invariant 0 twoAmenityStore
    (by simp [PerDayInv, twoAmenityStore])
  exact h.2 0 10 1 7200000 10800000
    { id := 1, name := "Pool", capacity := 3, maxDuration := 120 }
    (by rfl) (by decide) (by decide) (by decide)
    ⟨{ id := 1, userId := 10, amenityId := 1, startTime := 0, endTime := 3600000,
       status := "confirmed", hiddenFromUser := false, createdAt := 0 },
     by simp [twoAmenityStore], rfl, rfl, rfl, by decide, by decide⟩

/-- C2: `createReservation` evaluates its checks in exactly the source
order — parameter presence, amenity existence, maximum duration, start
strictly before end, user cross-amenity overlap, same-amenity same-day
duplicate, capacity — short-circuiting, so the first failing check alone
determines the reported rejection reason; in particular a request whose
endTime is before its startTime against an existing amenity (with
nonnegative maxDuration) is rejected with the time-range reason, the
duration check passing because a negative duration never exceeds it. -/
theorem validation_order (tz now : Int) (st : Store) (u : Nat) :
    (∀ req : CreateReq,
      req.amenityId = none ∨ req.startTime = none ∨ req.endTime = none →
      (createReservation tz now st u req).1 = .missingParameters) ∧
    (∀ (aid : Nat) (sv ev : Option Int), findAmenity st aid = none →
      (createReservation tz now st u ⟨some aid, some sv, some ev⟩).1 =
        .amenityNotFound) ∧
    (∀ (aid : Nat) (sv ev : Option Int) (amenity : Amenity),
      findAmenity st aid = some amenity →
      durationExceeds sv ev amenity.maxDuration = true →
      (createReservation tz now st u ⟨some aid, some sv, some ev⟩).1 =
        .durationExceeded amenity.name amenity.maxDuration) ∧
    (∀ (aid : Nat) (sv ev : Option Int) (amenity : Amenity),
      findAmenity st aid = some amenity →
      durationExceeds sv ev amenity.maxDuration = false →
      dateGe sv ev = true →
      (createReservation tz now st u ⟨some aid, some sv, some ev⟩).1 =
        .invalidTimeRange) ∧
    (∀ (aid : Nat) (s e : Int) (amenity : Amenity),
      findAmenity st aid = some amenity →
      ¬ 60000 * amenity.maxDuration < e - s → s < e →
      userConflictExists st u s e = true →
      (createReservation tz now st u ⟨some aid, some (some s), some (some e)⟩).1 =
        .userTimeConflict) ∧
    (∀ (aid : Nat) (s e : Int) (amenity : Amenity),
      findAmenity st aid = some amenity →
      ¬ 60000 * amenity.maxDuration < e - s → s < e →
      userConflictExists st u s e = false →
      sameDayExists tz st u aid s = true →
      (createReservation tz now st u ⟨some aid, some (some s), some (some e)⟩).1 =
        .duplicateAmenityPerDay amenity.name) ∧
    (∀ (aid : Nat) (s e : Int) (amenity : Amenity),
      findAmenity st aid = some amenity →
      ¬ 60000 * amenity.maxDuration < e - s → s < e →
      userConflictExists st u s e = false →
      sameDayExists tz st u aid s = false →
      amenity.capacity ≤ (overlapCount st aid s e : Int) →
      (createReservation tz now st u ⟨some aid, some (some s), some (some e)⟩).1 =
        .capacityFull) ∧
    (∀ (aid : Nat) (s e : Int) (amenity : Amenity),
      findAmenity st aid = some amenity →
      ¬ 60000 * amenity.maxDuration < e - s → s < e →
      userConflictExists st u s e = false →
      sameDayExists tz st u aid s = false →
      (overlapCount st aid s e : Int) < amenity.capacity →
      (createReservation tz now st u ⟨some aid, some (some s), some (some e)⟩).1 =
        .created (newReservation st u aid s e now)) ∧
    (∀ (aid : Nat) (s e : Int) (amenity : Amenity),
      findAmenity st aid = some amenity →
      0 ≤ amenity.maxDuration →
      e < s →
      (createReservation tz now st u ⟨some aid, some (some s), some (some e)⟩).1 =
        .invalidTimeRange) := by
  refine ⟨?_, ?_, ?_, ?_, ?_, ?_, ?_, ?_, ?_⟩
  · rintro ⟨aopt, sopt, eopt⟩ h
    rcases aopt with _ | aid <;> rcases sopt with _ | sv <;>
      rcases eopt with _ | ev <;>
      first
        | rfl
        | (exfalso; simp at h)
  · intro aid sv ev hfa
    simp [createReservation, hfa]
  · intro aid sv ev amenity hfa hdur
    simp [createReservation, hfa, hdur]
  · intro aid sv ev amenity hfa hdur hge
    simp [createReservation, hfa, hdur, hge]
  · intro aid s e amenity hfa hdur hlt huc
    rw [createReservation_eval tz now u hfa hdur hlt]
    simp [huc]
  · intro aid s e amenity hfa hdur hlt huc hsd
    rw [createReservation_eval tz now u hfa hdur hlt]
    simp [huc, hsd]
  · intro aid s e amenity hfa hdur hlt huc hsd hcap
    rw [createReservation_eval tz now u hfa hdur hlt]
    simp [huc, hsd, hcap]
  · intro aid s e amenity hfa hdur hlt huc hsd hcap
    rw [createReservation_eval tz now u hfa hdur hlt]
    simp [huc, hsd, not_le.mpr hcap]
  · intro aid s e amenity hfa hmd hlt
    have hdur : durationExceeds (some s) (some e) amenity.maxDuration = false := by
      simp only [durationExceeds, decide_eq_false_iff_not]
      omega
    have hge : dateGe (some s) (some e) = true := by
      simp only [dateGe, decide_eq_true_eq]
      omega
    simp [createReservation, hfa, hdur, hge]

theorem validation_order_witness :
    (createReservation 0 0 twoAmenityStore 10
      ⟨some 1, some (some 3600000), some (some 0)⟩).1 = .invalidTimeRange := by
  have h := validation_order 0 0 twoAmenityStore 10
  exact h.2.2.2.2.2.2.2.2 1 3600000 0
    { id := 1, name := "Pool", capacity := 3, maxDuration := 120 }
    (by rfl) (by decide) (by decide)

/-- C5: the overlap test shared by the user-conflict check and the
capacity count is strict on both ends: a reservation whose endTime equals
the proposed startTime, or whose startTime equals the proposed endTime,
never satisfies it, so adding such a reservation to the store changes
neither the user-conflict check nor the capacity count. -/
theorem overlap_half_open_strict (s e : Int) (r : Reservation)
    (h : r.endTime = s ∨ r.startTime = e) :
    overlapsWindow s e r = false ∧
    (∀ (st : Store) (u : Nat),
      userConflictExists
        { st with reservations := st.reservations ++ [r] } u s e =
        userConflictExists st u s e) ∧
    (∀ (st : Store) (aid : Nat),
      overlapCount { st with reservations := st.reservations ++ [r] } aid s e =
        overlapCount st aid s e) := by
  have hov : overlapsWindow s e r = false := by
    rcases h with h | h
    · subst h
      simp [overlapsWindow]
    · subst h
      simp [overlapsWindow]
  refine ⟨hov, ?_, ?_⟩
  · intro st u
    unfold userConflictExists
    rw [List.any_append]
    simp [hov]
  · intro st aid
    unfold overlapCount
    rw [List.filter_append]
    simp [hov]

theorem overlap_half_open_strict_witness :
    overlapsWindow 3600000 7200000
      { id := 1, userId := 10, amenityId := 1, startTime := 0,
        endTime := 3600000, status := "confirmed", hiddenFromUser := false,
        createdAt := 0 } = false :=
  (overlap_half_open_strict 3600000 7200000 _ (Or.inl rfl)).1

/-- C6 (observed behaviour at the failing input): a request whose date
fields are present but malformed — `new Date` yields an Invalid Date —
passes the presence, duration and time-range checks (NaN comparisons are
all false) and reaches the first store query, which throws: the controller
answers with its generic 500 branch, not with a date-format validation
rejection, and no reservation is created. -/
theorem malformed_date_internal_error :
    createReservation 0 0 twoAmenityStore 10 ⟨some 1, some none, some none⟩ =
      (.internalError, twoAmenityStore) := by
  rfl

theorem forall2_any_congr {α β : Type} {R : α → β → Prop} {p : α → Bool}
    {q : β → Bool} {l : List α} {l' : List β} (h : List.Forall₂ R l l')
    (hpq : ∀ a b, R a b → p a = q b) : l.any p = l'.any q := by
  induction h with
  | nil => rfl
  | cons hab _ ih => simp [List.any_cons, hpq _ _ hab, ih]

theorem forall2_countP_congr {α β : Type} {R : α → β → Prop} {p : α → Bool}
    {q : β → Bool} {l : List α} {l' : List β} (h : List.Forall₂ R l l')
    (hpq : ∀ a b, R a b → p a = q b) : l.countP p = l'.countP q := by
  induction h with
  | nil => rfl
  | cons hab _ ih => simp [List.countP_cons, hpq _ _ hab, ih]

/-- C7: the admission decision never reads `hiddenFromUser`: on two stores
that differ only in the hidden flags of their rows, `createReservation`
returns the same outcome — same accept/reject decision, same rejection
reason, and the same created row. -/
theorem hidden_flag_noninterference (tz now : Int) {st st' : Store}
    (h : StoreEqExceptHidden st st') (u : Nat) (req : CreateReq) :
    (createReservation tz now st u req).1 =
      (createReservation tz now st' u req).1 := by
  obtain ⟨ham, hnid, hres⟩ := h
  have hfa : ∀ aid, findAmenity st aid = findAmenity st' aid := by
    intro aid
    unfold findAmenity
    rw [ham]
  have huc : ∀ s e, userConflictExists st u s e = userConflictExists st' u s e := by
    intro s e
    unfold userConflictExists
    refine forall2_any_congr hres ?_
    intro a b hab
    obtain ⟨_, hu, _, hs, he, hst, _⟩ := hab
    simp [overlapsWindow, hu, hs, he, hst]
  have hsd : ∀ aid s, sameDayExists tz st u aid s = sameDayExists tz st' u aid s := by
    intro aid s
    unfold sameDayExists
    refine forall2_any_congr hres ?_
    intro a b hab
    obtain ⟨_, hu, hamid, hs, _, hst, _⟩ := hab
    simp [hu, hamid, hs, hst]
  have hoc : ∀ aid s e, overlapCount st aid s e = overlapCount st' aid s e := by
    intro aid s e
    unfold overlapCount
    rw [← List.countP_eq_length_filter, ← List.countP_eq_length_filter]
    refine forall2_countP_congr hres ?_
    intro a b hab
    obtain ⟨_, _, hamid, hs, he, hst, _⟩ := hab
    simp [overlapsWindow, hamid, hs, he, hst]
  rcases req with ⟨aopt, sopt, eopt⟩
  rcases aopt with _ | aid
  · rfl
  rcases sopt with _ | sv
  · rfl
  rcases eopt with _ | ev
  · rfl
  cases hfaa : findAmenity st aid with
  | none =>
    have hfaa' : findAmenity st' aid = none := (hfa aid).symm.trans hfaa
    simp [createReservation, hfaa, hfaa']
  | some amenity =>
    have hfaa' : findAmenity st' aid = some amenity := (hfa aid).symm.trans hfaa
    cases hdur : durationExceeds sv ev amenity.maxDuration with
    | true => simp [createReservation, hfaa, hfaa', hdur]
    | false =>
    cases hge : dateGe sv ev with
    | true => simp [createReservation, hfaa, hfaa', hdur, hge]
    | false =>
    rcases sv with _ | s
    · simp [createReservation, hfaa, hfaa', hdur, hge]
    rcases ev with _ | e
    · simp [createReservation, hfaa, hfaa', hdur, hge]
    cases huc1 : userConflictExists st u s e with
    | true =>
      have huc2 : userConflictExists st' u s e = true := (huc s e).symm.trans huc1
      simp [createReservation, hfaa, hfaa', hdur, hge, huc1, huc2]
    | false =>
    have huc2 : userConflictExists st' u s e = false := (huc s e).symm.trans huc1
    cases hsd1 : sameDayExists tz st u aid s with
    | true =>
      have hsd2 : sameDayExists tz st' u aid s = true := (hsd aid s).symm.trans hsd1
      simp [createReservation, hfaa, hfaa', hdur, hge, huc1, huc2, hsd1, hsd2]
    | false =>
    have hsd2 : sameDayExists tz st' u aid s = false := (hsd aid s).symm.trans hsd1
    by_cases hcap : amenity.capacity ≤ (overlapCount st aid s e : Int)
    · have hcap' : amenity.capacity ≤ (overlapCount st' aid s e : Int) := by
        rw [← hoc aid s e]
        exact hcap
      simp [createReservation, hfaa, hfaa', hdur, hge, huc1, huc2, hsd1, hsd2,
        hcap, hcap']
    · have hcap' : ¬ amenity.capacity ≤ (overlapCount st' aid s e : Int) := by
        rw [← hoc aid s e]
        exact hcap
      simp [createReservation, hfaa, hfaa', hdur, hge, huc1, huc2, hsd1, hsd2,
        hcap, hcap', newReservation, hnid]

theorem hidden_flag_noninterference_witness :
    (createReservation 0 0 twoAmenityStore 10
      ⟨some 2, some (some 1800000), some (some 5400000)⟩).1 =
    (createReservation 0 0 twoAmenityStoreHidden 10
      ⟨some 2, some (some 1800000), some (some 5400000)⟩).1 :=
  hidden_flag_noninterference 0 0
    ⟨rfl, rfl, List.Forall₂.cons ⟨rfl, rfl, rfl, rfl, rfl, rfl, rfl⟩
      List.Forall₂.nil⟩ 10 _

theorem forall2_map_self {α : Type} {R : α → α → Prop} {f : α → α}
    {l : List α} (h : ∀ x ∈ l, R x (f x)) : List.Forall₂ R l (l.map f) := by
  induction l with
  | nil => exact List.Forall₂.nil
  | cons a l ih =>
    exact List.Forall₂.cons (h a (by simp))
      (ih (fun x hx => h x (by simp [hx])))

/-- C8: on success, `hideReservationFromUser` changes only the target
row's `hiddenFromUser` (never `status`) and `cancelReservation` changes
only the target row's `status` (never `hiddenFromUser`); every other field
of the target row and every other row of the store — as well as the
amenity table and the id counter — are unchanged. -/
theorem cancel_hide_frame (st : Store) (u rid : Nat) :
    (∀ (r' : Reservation) (st2 : Store),
      cancelReservation st u rid = (.updated r', st2) →
      st2.amenities = st.amenities ∧ st2.nextId = st.nextId ∧
      List.Forall₂ (fun x x' =>
        (x.id = rid → x' = { x with status := "cancelled" }) ∧
        (x.id ≠ rid → x' = x)) st.reservations st2.reservations) ∧
    (∀ (r' : Reservation) (st2 : Store),
      hideReservationFromUser st u rid = (.updated r', st2) →
      st2.amenities = st.amenities ∧ st2.nextId = st.nextId ∧
      List.Forall₂ (fun x x' =>
        (x.id = rid → x' = { x with hiddenFromUser := true }) ∧
        (x.id ≠ rid → x' = x)) st.reservations st2.reservations) := by
  constructor
  · intro r' st2 h
    cases hf : st.reservations.find? (fun r => r.id == rid) with
    | none => simp [cancelReservation, hf] at h
    | some r =>
      by_cases ho : r.userId ≠ u
      · simp [cancelReservation, hf, ho] at h
      · simp only [cancelReservation, hf, if_neg ho, Prod.mk.injEq] at h
        obtain ⟨h1, h2⟩ := h
        subst h2
        refine ⟨rfl, rfl, forall2_map_self ?_⟩
        intro x _
        by_cases hx : x.id = rid
        · exact ⟨fun _ => by simp [hx], fun hc => absurd hx hc⟩
        · exact ⟨fun hc => absurd hc hx, fun _ => by simp [hx]⟩
  · intro r' st2 h
    cases hf : st.reservations.find? (fun r => r.id == rid) with
    | none => simp [hideReservationFromUser, hf] at h
    | some r =>
      by_cases ho : r.userId ≠ u
      · simp [hideReservationFromUser, hf, ho] at h
      · simp only [hideReservationFromUser, hf, if_neg ho, Prod.mk.injEq] at h
        obtain ⟨h1, h2⟩ := h
        subst h2
        refine ⟨rfl, rfl, forall2_map_self ?_⟩
        intro x _
        by_cases hx : x.id = rid
        · exact ⟨fun _ => by simp [hx], fun hc => absurd hx hc⟩
        · exact ⟨fun hc => absurd hc hx, fun _ => by simp [hx]⟩

theorem cancel_hide_frame_witness :
    ({ twoAmenityStore with
       reservations := [{ id := 1, userId := 10, amenityId := 1,
                          startTime := 0, endTime := 3600000,
                          status := "cancelled", hiddenFromUser := false,
                          createdAt := 0 }] } : Store).amenities =
      twoAmenityStore.amenities :=
  ((cancel_hide_frame twoAmenityStore 10 1).1
    { id := 1, userId := 10, amenityId := 1, startTime := 0,
      endTime := 3600000, status := "cancelled", hiddenFromUser := false,
      createdAt := 0 }
    { twoAmenityStore with
      reservations := [{ id := 1, userId := 10, amenityId := 1,
                         startTime := 0, endTime := 3600000,
                         status := "cancelled", hiddenFromUser := false,
                         createdAt := 0 }] }
    (by rfl)).1

/-- A successful `createReservation` returns the inserted row and the
store extended with it. -/
theorem createReservation_created_shape {tz now : Int} {st : Store} {u : Nat}
    {req : CreateReq} {r : Reservation} {st' : Store}
    (h : createReservation tz now st u req = (.created r, st')) :
    ∃ aid s e,
      r = newReservation st u aid s e now ∧
      st' = acceptStore st u aid s e now := by
  rcases createReservation_state_cases tz now st u req with ⟨hno, -⟩ |
    ⟨aid, s, e, amenity, hreq, hfa, huc, hsd, hcap, hcr⟩
  · exact absurd (congrArg Prod.fst h) (hno r)
  · rw [hcr] at h
    injection h with h1 h2
    injection h1 with h1
    exact ⟨aid, s, e, h1.symm, h2.symm⟩

/-- The listing `getUserReservations` always returns a list sorted by `startTime`. -/
theorem getUserReservations_sorted (st : Store) (u : Nat) :
    List.Sorted (fun a b : Reservation => a.startTime ≤ b.startTime)
      (getUserReservations st u) := by
  unfold getUserReservations
  have h := @List.sorted_mergeSort Reservation
    (fun a b : Reservation => decide (a.startTime ≤ b.startTime))
    (fun a b c hab hbc => by
      simp only [decide_eq_true_eq] at hab hbc ⊢
      omega)
    (fun a b => by
      simp only [Bool.or_eq_true, decide_eq_true_eq]
      omega)
    (st.reservations.filter (fun r => r.userId == u && r.hiddenFromUser == false))
  exact h.imp (fun hab => by simpa using hab)

/-- C9: a reservation accepted by `createReservation` appears in the
user's subsequent listing — it is created with `hiddenFromUser = false`
and the listing keeps exactly the non-hidden rows of the user — and the
listing is ordered by `startTime` ascending. -/
theorem create_list_roundtrip {tz now : Int} {st st' : Store} {u : Nat}
    {req : CreateReq} {r : Reservation}
    (h : createReservation tz now st u req = (.created r, st')) :
    r.hiddenFromUser = false ∧
    r ∈ getUserReservations st' u ∧
    List.Sorted (fun a b : Reservation => a.startTime ≤ b.startTime)
      (getUserReservations st' u) := by
  obtain ⟨aid, s, e, hr, hst⟩ := createReservation_created_shape h
  subst hst
  refine ⟨by simp [hr, newReservation], ?_, getUserReservations_sorted _ _⟩
  unfold getUserReservations
  rw [List.mem_mergeSort]
  apply List.mem_filter.mpr
  constructor
  · simp [acceptStore, hr]
  · simp [hr, newReservation]

theorem create_list_roundtrip_witness :
    newReservation poolStore 10 1 0 3600000 0 ∈
      getUserReservations (acceptStore poolStore 10 1 0 3600000 0) 10 :=
  (@create_list_roundtrip 0 0 poolStore (acceptStore poolStore 10 1 0 3600000 0)
    10 ⟨some 1, some (some 0), some (some 3600000)⟩
    (newReservation poolStore 10 1 0 3600000 0) (by rfl)).2.1

/-- C10: `getAmenityReservations` never checks that the amenity exists:
under referential integrity, for an `amenityId` matching no amenity it
succeeds with the empty sequence, for any optional date range, and the
store is unchanged. -/
theorem listAmenity_missing_amenity_empty (st : Store) (aid : Nat)
    (startDate endDate : Option Int)
    (href : ∀ r ∈ st.reservations, ∃ a ∈ st.amenities, a.id = r.amenityId)
    (habs : findAmenity st aid = none) :
    getAmenityReservations st aid startDate endDate = ([], st) := by
  have hno : ∀ r ∈ st.reservations, (r.amenityId == aid) = false := by
    intro r hr
    obtain ⟨a, ha, haid⟩ := href r hr
    unfold findAmenity at habs
    have h2 : a.id ≠ aid := by
      simpa using List.find?_eq_none.mp habs a ha
    rw [beq_eq_false_iff_ne]
    rw [← haid]
    exact h2
  rcases startDate with _ | sd <;> rcases endDate with _ | ed <;>
    · simp only [getAmenityReservations]
      rw [List.filter_eq_nil_iff.mpr (fun r hr => by simp [hno r hr]),
        List.mergeSort_nil]

theorem listAmenity_missing_amenity_witness :
    getAmenityReservations twoAmenityStore 77 (some 0) none = ([], twoAmenityStore) :=
  listAmenity_missing_amenity_empty twoAmenityStore 77 (some 0) none
    (by
      intro r hr
      refine ⟨{ id := 1, name := "Pool", capacity := 3, maxDuration := 120 },
        by simp [twoAmenityStore], ?_⟩
      have : r = { id := 1, userId := 10, amenityId := 1, startTime := 0,
                   endTime := 3600000, status := "confirmed",
                   hiddenFromUser := false, createdAt := 0 } := by
        simpa [twoAmenityStore] using hr
      rw [this])
    (by rfl)

end Reserv
